import Mathlib

/-!
Verification development for the ITOM model-assembly engine
(`itom.py`, `itom_hub.py`, `itom_hub_tinyomo.py`, `itom_retrofit.py`,
`itom_impurities.py`).

The constraint-generating rules of the two emission backends are embedded
shallowly:

* a Pyomo rule (symbolic backend, `abstract_itom_hub`) returns a relational
  expression between two affine expressions, embedded as `PyRel`;
* a tinyomo rule (sparse-row backend, `itom_hub_tinyomo`) returns a dict
  `{lhs, rhs, sense}` whose lhs is a list of (coefficient, label) or
  (coefficient, [labels]) entries, embedded as `TRow`;
* `Constraint.Skip` / `None` are embedded as `Option.none`.

Set members (regions, locations, technologies, products, transport modes) are
embedded as naturals; year labels take part in arithmetic in the source
(`y - min(YEAR)`, `TimeStep[y]/2`, ...) and are embedded as rationals.
Coefficients that the source computes with `**` on floats (arbitrary real
exponents) are embedded as real numbers via `Real.rpow`; all branch
conditions of the source compare plain (rational) data, so branch selection
stays decidable.
-/

namespace Itom

/-- Comparison operator of an emitted row (the `sense` field of a tinyomo row,
or the relation of a Pyomo expression). -/
inductive Sense
  | le
  | eq
  | ge
deriving DecidableEq

/-- Decision-variable instances (columns of the linear system), one
constructor per variable family used by the rules under study.
Index order follows the source declarations. -/
inductive Col
  | SalvageValue (r t : ℕ) (y : ℚ)
  | NewCapacity (r t : ℕ) (y : ℚ)
  | LocalNewCapacity (l t : ℕ) (y : ℚ)
  | TotalCapacity (r t : ℕ) (y : ℚ)
  | LocalTotalCapacity (l t : ℕ) (y : ℚ)
  | LocalActivity (l t : ℕ) (y : ℚ)
  | Transport (l ll p tr : ℕ) (y : ℚ)
  | LocalProduction (l p : ℕ) (y : ℚ)
  | LocalCapitalInvestment (l t : ℕ) (y : ℚ)
  | LocalDiscountedCapitalInvestment (l t : ℕ) (y : ℚ)
  | LocalOperatingCost (l t : ℕ) (y : ℚ)
  | LocalDiscountedOperatingCost (l t : ℕ) (y : ℚ)
  | DiscountedSalvageValue (r t : ℕ) (y : ℚ)
  | LocalProductionByTechnology (l t p : ℕ) (y : ℚ)
deriving DecidableEq

/-- Affine expression: linear terms plus a constant (one side of a Pyomo
relational expression). -/
structure Aff (α : Type) where
  terms : List (α × Col)
  const : α
deriving DecidableEq

/-- Value of an affine expression under an assignment of the columns. -/
def Aff.eval {α : Type} [Semiring α] (v : Col → α) (e : Aff α) : α :=
  (e.terms.map (fun tc => tc.1 * v tc.2)).sum + e.const

/-- A Pyomo rule's returned relational expression (`lhs == rhs`,
`lhs <= rhs` or `lhs >= rhs`). -/
inductive PyRel (α : Type)
  | le (lhs rhs : Aff α)
  | eq (lhs rhs : Aff α)
  | ge (lhs rhs : Aff α)
deriving DecidableEq

/-- Satisfaction of a Pyomo relational expression by an assignment. -/
def PyRel.sat {α : Type} [LinearOrderedField α] (v : Col → α) : PyRel α → Prop
  | .le lhs rhs => Aff.eval v lhs ≤ Aff.eval v rhs
  | .eq lhs rhs => Aff.eval v lhs = Aff.eval v rhs
  | .ge lhs rhs => Aff.eval v lhs ≥ Aff.eval v rhs

instance {α : Type} [LinearOrderedField α] [DecidableEq α] (v : Col → α) :
    (r : PyRel α) → Decidable (PyRel.sat v r)
  | .le _ _ => inferInstanceAs (Decidable (_ ≤ _))
  | .eq _ _ => inferInstanceAs (Decidable (_ = _))
  | .ge _ _ => inferInstanceAs (Decidable (_ ≥ _))

/-- Sense of a Pyomo relational expression. -/
def PyRel.senseOf {α : Type} : PyRel α → Sense
  | .le _ _ => .le
  | .eq _ _ => .eq
  | .ge _ _ => .ge

/-- One lhs entry of a tinyomo sparse row: a scalar coefficient on a single
label, one scalar applied to a batch of labels, or parallel
coefficient/label lists. -/
inductive TTerm (α : Type)
  | single (c : α) (col : Col)
  | batch (c : α) (cols : List Col)
  | paired (cs : List α) (cols : List Col)
deriving DecidableEq

/-- Value of a tinyomo lhs entry under an assignment. -/
def TTerm.eval {α : Type} [Semiring α] (v : Col → α) : TTerm α → α
  | .single c col => c * v col
  | .batch c cols => (cols.map (fun col => c * v col)).sum
  | .paired cs cols => ((cs.zip cols).map (fun cc => cc.1 * v cc.2)).sum

/-- A tinyomo sparse row: the dict `{lhs, rhs, sense}` returned by a rule. -/
structure TRow (α : Type) where
  lhs : List (TTerm α)
  rhs : α
  sense : Sense
deriving DecidableEq

/-- Satisfaction of a tinyomo sparse row by an assignment. -/
def TRow.sat {α : Type} [LinearOrderedField α] (v : Col → α) (row : TRow α) : Prop :=
  match row.sense with
  | .le => (row.lhs.map (TTerm.eval v)).sum ≤ row.rhs
  | .eq => (row.lhs.map (TTerm.eval v)).sum = row.rhs
  | .ge => (row.lhs.map (TTerm.eval v)).sum ≥ row.rhs

instance {α : Type} [LinearOrderedField α] [DecidableEq α] (v : Col → α) (row : TRow α) :
    Decidable (TRow.sat v row) := by
  unfold TRow.sat
  exact match row.sense with
  | .le => inferInstanceAs (Decidable (_ ≤ _))
  | .eq => inferInstanceAs (Decidable (_ = _))
  | .ge => inferInstanceAs (Decidable (_ ≥ _))

/-- Feasibility of an optional row (`none` = the rule skipped, which
constrains nothing). -/
def OptSatP {α : Type} [LinearOrderedField α] (v : Col → α) (o : Option (PyRel α)) : Prop :=
  ∀ rel, o = some rel → PyRel.sat v rel

/-- Feasibility of an optional tinyomo row (`none` = skipped). -/
def OptSatT {α : Type} [LinearOrderedField α] (v : Col → α) (o : Option (TRow α)) : Prop :=
  ∀ row, o = some row → TRow.sat v row

/-- Number of occurrences of a column among the labels of a tinyomo row's
lhs entries. -/
def TRow.colCount {α : Type} (row : TRow α) (c : Col) : ℕ :=
  (row.lhs.map (fun t =>
    match t with
    | .single _ col => if col = c then 1 else 0
    | .batch _ cols => cols.count c
    | .paired _ cols => cols.count c)).sum

/-! ## Hub-branching equations (claim about `CA0_NewCapacity_rule` and
`CA5_ConstraintCapacity_rule` of `itom_hub.py`)

Environment shared by the capacity-adequacy rules of the hub model. -/

/-- Data read by the capacity-adequacy rules of `abstract_itom_hub`. -/
structure HubEnv where
  REGION : List ℕ
  LOCATION : List ℕ
  HubLocation : ℕ → ℤ
  HubTechnology : ℕ → ℤ
  Geography : ℕ → ℕ → ℚ
  AvailabilityFactor : ℕ → ℕ → ℚ → ℚ
  CapacityToActivityUnit : ℕ → ℕ → ℚ

/-- Which of the two hub branches of a hub-branching equation fires. -/
inductive Branch
  | hub
  | nonhub
deriving DecidableEq

/-- Branch selection of `CA0_NewCapacity_rule`: `if HubTechnology[t]==1`
takes the hub branch, `elif HubTechnology[t]==0` the non-hub branch; any
other value leaves `RelevantLocation` unbound (a Python error), embedded as
`none`. -/
def CA0_branch (ht : ℤ) : Option Branch :=
  if ht = 1 then some .hub
  else if ht = 0 then some .nonhub
  else none

/-- `CA0_NewCapacity_rule` of `itom_hub.py`: aggregates local new capacity
over the locations whose hub status matches the technology's hub status. -/
def CA0_NewCapacity_rule (env : HubEnv) (r t : ℕ) (y : ℚ) : Option (PyRel ℚ) :=
  match CA0_branch (env.HubTechnology t) with
  | some .hub =>
      some (.eq ⟨[(1, .NewCapacity r t y)], 0⟩
        ⟨(env.LOCATION.filter (fun l => env.HubLocation l == 1)).map
          (fun l => (env.Geography r l, .LocalNewCapacity l t y)), 0⟩)
  | some .nonhub =>
      some (.eq ⟨[(1, .NewCapacity r t y)], 0⟩
        ⟨(env.LOCATION.filter (fun l => env.HubLocation l == 0)).map
          (fun l => (env.Geography r l, .LocalNewCapacity l t y)), 0⟩)
  | none => none

/-- Branch selection of `CA5_ConstraintCapacity_rule`: the rule's guard is
`(HubLocation[l]==1 and HubTechnology[t]==1) or
(HubLocation[l]==0 and HubTechnology[t]==0)`; the first disjunct is the hub
branch, the second the non-hub branch, and when neither holds the rule
returns `Constraint.Skip` (embedded as `none`). -/
def CA5_branch (hl ht : ℤ) : Option Branch :=
  if hl = 1 ∧ ht = 1 then some .hub
  else if hl = 0 ∧ ht = 0 then some .nonhub
  else none

/-- `CA5_ConstraintCapacity_rule` of `itom_hub.py`: local activity is
bounded by local total capacity times the availability product, emitted only
when the location's and the technology's hub statuses agree. -/
def CA5_ConstraintCapacity_rule (env : HubEnv) (l t : ℕ) (y : ℚ) : Option (PyRel ℚ) :=
  if (env.HubLocation l = 1 ∧ env.HubTechnology t = 1) ∨
      (env.HubLocation l = 0 ∧ env.HubTechnology t = 0) then
    some (.le ⟨[(1, .LocalActivity l t y)], 0⟩
      ⟨[((env.REGION.map (fun r =>
            env.AvailabilityFactor r t y * env.CapacityToActivityUnit r t *
              env.Geography r l)).sum,
         .LocalTotalCapacity l t y)], 0⟩)
  else none

/-! ## Bound-saturation skip (`TCC1_TotalAnnualMaxCapacityConstraint_rule`) -/

/-- The "no effective limit" sentinel `self.HighMaxDefault = 1e20` assigned
in `abstract_itom_hub.__init__` and `itom_hub_tinyomo.__init__`
(the float literal `1e20` is exactly `10^20`). -/
def HighMaxDefault : ℚ := 10 ^ 20

/-- `TCC1_TotalAnnualMaxCapacityConstraint_rule` of `itom_hub.py`
(symbolic backend): emit `TotalCapacity[r,t,y] <= TotalAnnualMaxCapacity[r,t,y]`
unless the bound equals the sentinel, in which case skip. -/
def TCC1_TotalAnnualMaxCapacityConstraint_rule (maxcap : ℚ) (r t : ℕ) (y : ℚ) :
    Option (PyRel ℚ) :=
  if maxcap ≠ HighMaxDefault then
    some (.le ⟨[(1, .TotalCapacity r t y)], 0⟩ ⟨[], maxcap⟩)
  else none

/-- `TCC1_TotalAnnualMaxCapacityConstraint_rule` of `itom_hub_tinyomo.py`
(sparse-row backend): same guard, row `[(1, TotalCapacity)] <= maxcap`. -/
def TCC1_rule_tinyomo (maxcap : ℚ) (r t : ℕ) (y : ℚ) : Option (TRow ℚ) :=
  if maxcap ≠ HighMaxDefault then
    some ⟨[.single 1 (.TotalCapacity r t y)], maxcap, .le⟩
  else none

/-- Shadow variant stated by the spec for the feasibility-equivalence test:
the row `TotalCapacity[r,t,y] <= maxcap` is always emitted, even when the
bound equals the sentinel. (This definition follows the spec's words, not
the source; it is the comparison object of the refinement claim.) -/
def TCC1_rule_shadow (maxcap : ℚ) (r t : ℕ) (y : ℚ) : Option (TRow ℚ) :=
  some ⟨[.single 1 (.TotalCapacity r t y)], maxcap, .le⟩

/-! ## Transport rules (`TF2_Transport_2_rule`, `TF1b_Transport_1b_rule`) -/

/-- Data read by the transport-flow rules of the hub model. -/
structure TFEnv where
  PRODUCT : List ℕ
  LOCATION : List ℕ
  TRANSPORTMODE : List ℕ
  TransportRoute : ℕ → ℕ → ℕ → ℕ → ℚ → ℤ
  TransportCapacity : ℕ → ℕ → ℕ → ℕ → ℚ → ℚ
  TransportCapacityToActivity : ℕ → ℚ
  MultiPurposeTransport : ℕ → ℤ
  HubLocation : ℕ → ℤ

/-- The outbound transport columns summed by `TF2_Transport_2_rule`: for each
destination `ll` and each transport mode with `TransportRoute[l,ll,p,trm,y]==1`,
the variable `Transport[l,ll,p,tr,y]`. Both backends enumerate this sum with
the same nested comprehension. -/
def TF2_transportCols (env : TFEnv) (l p : ℕ) (y : ℚ) : List Col :=
  env.LOCATION.flatMap (fun ll =>
    (env.TRANSPORTMODE.filter (fun trm => env.TransportRoute l ll p trm y == 1)).map
      (fun tr => Col.Transport l ll p tr y))

/-- `TF2_Transport_2_rule` of `itom_hub.py`: at a regular location
(`HubLocation[l]==0`) total outbound transport is `<=` local production; at a
hub location it is `==` local production. -/
def TF2_Transport_2_rule (env : TFEnv) (l p : ℕ) (y : ℚ) : PyRel ℚ :=
  if env.HubLocation l = 0 then
    .le ⟨(TF2_transportCols env l p y).map (fun c => ((1 : ℚ), c)), 0⟩
      ⟨[(1, .LocalProduction l p y)], 0⟩
  else
    .eq ⟨(TF2_transportCols env l p y).map (fun c => ((1 : ℚ), c)), 0⟩
      ⟨[(1, .LocalProduction l p y)], 0⟩

/-- `TF2_Transport_2_rule` of `itom_hub_tinyomo.py`: same guard; the row is
`[(1, [outbound transport labels]), (-1, LocalProduction)] <= 0` at a regular
location and `== 0` at a hub location. (The discarded `TransportRoute`
lookup at the start of the regular branch has no effect on the row:
parameter lookup is total and returns the default when absent.) -/
def TF2_rule_tinyomo (env : TFEnv) (l p : ℕ) (y : ℚ) : TRow ℚ :=
  if env.HubLocation l = 0 then
    ⟨[.batch 1 (TF2_transportCols env l p y), .single (-1) (.LocalProduction l p y)], 0, .le⟩
  else
    ⟨[.batch 1 (TF2_transportCols env l p y), .single (-1) (.LocalProduction l p y)], 0, .eq⟩

/-- Products routed from `l` to `ll` on mode `tr` in year `y`
(`RELEVANT_PRODUCT_to_ll` in `TF1b_Transport_1b_rule`). -/
def TF1b_relevant_to (env : TFEnv) (l ll tr : ℕ) (y : ℚ) : List ℕ :=
  env.PRODUCT.filter (fun p => env.TransportRoute l ll p tr y == 1)

/-- Products routed from `ll` back to `l` on mode `tr` in year `y`
(`RELEVANT_PRODUCT_from_ll` in `TF1b_Transport_1b_rule`). -/
def TF1b_relevant_from (env : TFEnv) (l ll tr : ℕ) (y : ℚ) : List ℕ :=
  env.PRODUCT.filter (fun p => env.TransportRoute ll l p tr y == 1)

/-- Pooled right-hand side of `TF1b_Transport_1b_rule`:
`1/len(RELEVANT_PRODUCT_to_ll) * sum(TransportCapacity[l,ll,p,tr,y]) *
TransportCapacityToActivity[tr]`. -/
def TF1b_rhs (env : TFEnv) (l ll tr : ℕ) (y : ℚ) : ℚ :=
  1 / (TF1b_relevant_to env l ll tr y).length *
    ((TF1b_relevant_to env l ll tr y).map
      (fun p => env.TransportCapacity l ll p tr y)).sum *
    env.TransportCapacityToActivity tr

/-- `TF1b_Transport_1b_rule` of `itom_hub.py`: for a multi-purpose transport
mode, one pooled capacity row over the products routed on the pair (both
directions when routes exist both ways); skip when no product is routed
`l`-to-`ll`. -/
def TF1b_Transport_1b_rule (env : TFEnv) (l ll tr : ℕ) (y : ℚ) : Option (PyRel ℚ) :=
  if env.MultiPurposeTransport tr = 1 then
    let to_ll := TF1b_relevant_to env l ll tr y
    let from_ll := TF1b_relevant_from env l ll tr y
    if to_ll = [] ∧ from_ll = [] then none
    else if to_ll ≠ [] ∧ from_ll = [] then
      some (.le ⟨to_ll.map (fun p => ((1 : ℚ), Col.Transport l ll p tr y)), 0⟩
        ⟨[], TF1b_rhs env l ll tr y⟩)
    else if to_ll = [] ∧ from_ll ≠ [] then none
    else
      some (.le ⟨to_ll.map (fun p => ((1 : ℚ), Col.Transport l ll p tr y)) ++
          from_ll.map (fun p => ((1 : ℚ), Col.Transport ll l p tr y)), 0⟩
        ⟨[], TF1b_rhs env l ll tr y⟩)
  else none

/-- `TF1b_Transport_1b_rule` of `itom_hub_tinyomo.py`: same branch structure;
the pooled row batches the forward (and, when present, backward) transport
labels with coefficient 1. -/
def TF1b_rule_tinyomo (env : TFEnv) (l ll tr : ℕ) (y : ℚ) : Option (TRow ℚ) :=
  if env.MultiPurposeTransport tr = 1 then
    let to_ll := TF1b_relevant_to env l ll tr y
    let from_ll := TF1b_relevant_from env l ll tr y
    if to_ll = [] ∧ from_ll = [] then none
    else if to_ll ≠ [] ∧ from_ll = [] then
      some ⟨[.batch 1 (to_ll.map (fun p => Col.Transport l ll p tr y))],
        TF1b_rhs env l ll tr y, .le⟩
    else if to_ll = [] ∧ from_ll ≠ [] then none
    else
      some ⟨[.batch 1 (to_ll.map (fun p => Col.Transport l ll p tr y)),
          .batch 1 (from_ll.map (fun p => Col.Transport ll l p tr y))],
        TF1b_rhs env l ll tr y, .le⟩
  else none

/-! ## Salvage value (`SV1_SalvageValueAtEndOfPeriod_rule`)

The rule is indexed by `(r, t, y)`. It reads `DepreciationMethod[r]`,
`DiscountRate[r]`, `OperationalLife[r,t]`, `CapitalCost[r,t,y]`,
`TimeStep[y]`, `max(YEAR)` and `TimeStep[max(YEAR)]`; the environment bundles
those looked-up values together with the column indices `r`, `t`, `y`. -/

/-- Parameter values read by `SV1_SalvageValueAtEndOfPeriod_rule` at one
index tuple `(r, t, y)`. -/
structure SVEnv where
  r : ℕ
  t : ℕ
  y : ℚ
  ymax : ℚ
  tsy : ℚ
  tsmax : ℚ
  DepreciationMethod : ℤ
  DiscountRate : ℚ
  OperationalLife : ℚ
  CapitalCost : ℚ

/-- The guard shared by the first two branches of SV1:
`(y + TimeStep[y]/2 + OperationalLife[r,t] - 1) > (max(YEAR) + TimeStep[max(YEAR)]/2)`,
i.e. the technology's operational life extends beyond the model horizon's
end. -/
def SV1_beyondHorizon (e : SVEnv) : Prop :=
  e.y + e.tsy / 2 + e.OperationalLife - 1 > e.ymax + e.tsmax / 2

instance (e : SVEnv) : Decidable (SV1_beyondHorizon e) :=
  inferInstanceAs (Decidable (_ > _))

/-- Condition of SV1's first branch: depreciation method 1, life beyond the
horizon, positive discount rate. -/
def SV1_cond1 (e : SVEnv) : Prop :=
  e.DepreciationMethod = 1 ∧ SV1_beyondHorizon e ∧ e.DiscountRate > 0

instance (e : SVEnv) : Decidable (SV1_cond1 e) :=
  inferInstanceAs (Decidable (_ ∧ _))

/-- Condition of SV1's second branch: method 1, life beyond the horizon and
zero discount rate, or method 2 and life beyond the horizon. -/
def SV1_cond2 (e : SVEnv) : Prop :=
  (e.DepreciationMethod = 1 ∧ SV1_beyondHorizon e ∧ e.DiscountRate = 0) ∨
    (e.DepreciationMethod = 2 ∧ SV1_beyondHorizon e)

instance (e : SVEnv) : Decidable (SV1_cond2 e) :=
  inferInstanceAs (Decidable (_ ∨ _))

/-- The elapsed-years numerator shared by SV1's first two branches in the hub
model: `max(YEAR) + TimeStep[max]/2 - (y - TimeStep[y]/2 + 1) + 1`. -/
def SV1_hub_num (e : SVEnv) : ℚ :=
  e.ymax + e.tsmax / 2 - (e.y - e.tsy / 2 + 1) + 1

/-- Salvage factor of SV1's first branch (declining balance) in the hub
model:
`1 - (((1+dr)^(max(YEAR) + TimeStep[max]/2 - (y - TimeStep[y]/2 + 1) + 1) - 1)
/ ((1+dr)^OperationalLife - 1))`, with real exponentiation. -/
noncomputable def SV1_hub_coef1 (e : SVEnv) : ℝ :=
  1 - (((1 + (e.DiscountRate : ℝ)) ^ ((SV1_hub_num e : ℚ) : ℝ) - 1) /
        ((1 + (e.DiscountRate : ℝ)) ^ ((e.OperationalLife : ℚ) : ℝ) - 1))

/-- Salvage factor of SV1's second branch (straight line) in the hub model:
`1 - (max(YEAR) + TimeStep[max]/2 - (y - TimeStep[y]/2 + 1) + 1) / OperationalLife`. -/
def SV1_hub_coef2 (e : SVEnv) : ℚ :=
  1 - SV1_hub_num e / e.OperationalLife

/-- Salvage factor of SV1's second branch in the plain (non-hub) model
`itom.py`: `1 - (max(YEAR) - y + 1) / OperationalLife`. -/
def SV1_plain_coef2 (e : SVEnv) : ℚ :=
  1 - (e.ymax - e.y + 1) / e.OperationalLife

/-- `SV1_SalvageValueAtEndOfPeriod_rule` of `itom_hub.py` (symbolic
backend). The three branches return
`SalvageValue == CapitalCost * NewCapacity * factor` (factor from the fired
branch) or `SalvageValue == 0`; the product `CapitalCost * factor` is the
coefficient on the `NewCapacity` column. -/
noncomputable def SV1_rule_hub (e : SVEnv) : PyRel ℝ :=
  if SV1_cond1 e then
    .eq ⟨[(1, .SalvageValue e.r e.t e.y)], 0⟩
      ⟨[((e.CapitalCost : ℝ) * SV1_hub_coef1 e, .NewCapacity e.r e.t e.y)], 0⟩
  else if SV1_cond2 e then
    .eq ⟨[(1, .SalvageValue e.r e.t e.y)], 0⟩
      ⟨[((e.CapitalCost : ℝ) * ((SV1_hub_coef2 e : ℚ) : ℝ), .NewCapacity e.r e.t e.y)], 0⟩
  else
    .eq ⟨[(1, .SalvageValue e.r e.t e.y)], 0⟩ ⟨[], 0⟩

/-- `SV1_SalvageValueAtEndOfPeriod_rule` of `itom.py` (plain, non-hub
model): identical branch conditions; the second branch uses the simpler
horizon-end offset `(max(YEAR) - y + 1)`. -/
noncomputable def SV1_rule_plain (e : SVEnv) : PyRel ℝ :=
  if SV1_cond1 e then
    .eq ⟨[(1, .SalvageValue e.r e.t e.y)], 0⟩
      ⟨[((e.CapitalCost : ℝ) * SV1_hub_coef1 e, .NewCapacity e.r e.t e.y)], 0⟩
  else if SV1_cond2 e then
    .eq ⟨[(1, .SalvageValue e.r e.t e.y)], 0⟩
      ⟨[((e.CapitalCost : ℝ) * ((SV1_plain_coef2 e : ℚ) : ℝ), .NewCapacity e.r e.t e.y)], 0⟩
  else
    .eq ⟨[(1, .SalvageValue e.r e.t e.y)], 0⟩ ⟨[], 0⟩

/-- `SV1_SalvageValueAtEndOfPeriod_rule` of `itom_hub_tinyomo.py` (sparse-row
backend). Same branch conditions and factors as the hub symbolic backend; in
the second branch the source attaches the coefficient
`-1 * CapitalCost * factor` to `self.SalvageValue.get_index_label(r, t, y)`
(not to the `NewCapacity` label). -/
noncomputable def SV1_rule_tinyomo (e : SVEnv) : TRow ℝ :=
  if SV1_cond1 e then
    ⟨[.single 1 (.SalvageValue e.r e.t e.y),
      .single (-1 * (e.CapitalCost : ℝ) * SV1_hub_coef1 e) (.NewCapacity e.r e.t e.y)],
      0, .eq⟩
  else if SV1_cond2 e then
    ⟨[.single 1 (.SalvageValue e.r e.t e.y),
      .single (-1 * (e.CapitalCost : ℝ) * ((SV1_hub_coef2 e : ℚ) : ℝ))
        (.SalvageValue e.r e.t e.y)],
      0, .eq⟩
  else
    ⟨[.single 1 (.SalvageValue e.r e.t e.y)], 0, .eq⟩

/-! ## Division-checked variants (zero operational life / zero time step)

The source performs plain float division with no guard; the checked variants
make every division of the discounting formulas explicit, returning an error
exactly when a divisor is zero. -/

/-- `SV1_SalvageValueAtEndOfPeriod_rule` (hub) with every division guarded:
branch 1 divides by `(1+dr)^OperationalLife - 1`, branch 2 by
`OperationalLife`; the zero branch divides by nothing. -/
noncomputable def SV1_rule_hub_checked (e : SVEnv) : Except String (PyRel ℝ) :=
  if SV1_cond1 e then
    if (1 + (e.DiscountRate : ℝ)) ^ ((e.OperationalLife : ℚ) : ℝ) - 1 = 0 then
      .error "SV1 branch 1: zero divisor"
    else
      .ok (.eq ⟨[(1, .SalvageValue e.r e.t e.y)], 0⟩
        ⟨[((e.CapitalCost : ℝ) * SV1_hub_coef1 e, .NewCapacity e.r e.t e.y)], 0⟩)
  else if SV1_cond2 e then
    if e.OperationalLife = 0 then
      .error "SV1 branch 2: zero divisor"
    else
      .ok (.eq ⟨[(1, .SalvageValue e.r e.t e.y)], 0⟩
        ⟨[((e.CapitalCost : ℝ) * ((SV1_hub_coef2 e : ℚ) : ℝ), .NewCapacity e.r e.t e.y)], 0⟩)
  else
    .ok (.eq ⟨[(1, .SalvageValue e.r e.t e.y)], 0⟩ ⟨[], 0⟩)

/-- Divisor of `SV2_SalvageValueDiscountedToStartYear_rule`:
`(1 + DiscountRate[r])^(1 + max(YEAR) + TimeStep[max]/2 - (min(YEAR) - TimeStep[min]/2 + 1))`. -/
noncomputable def SV2_divisor (dr ymax tsmax ymin tsmin : ℚ) : ℝ :=
  (1 + (dr : ℝ)) ^ (((1 + ymax + tsmax / 2 - (ymin - tsmin / 2 + 1) : ℚ) : ℝ))

/-- `SV2_SalvageValueDiscountedToStartYear_rule` of `itom_hub.py` with its
single division guarded. -/
noncomputable def SV2_rule_checked (r t : ℕ) (y dr ymax tsmax ymin tsmin : ℚ) :
    Except String (PyRel ℝ) :=
  if SV2_divisor dr ymax tsmax ymin tsmin = 0 then
    .error "SV2: zero divisor"
  else
    .ok (.eq ⟨[(1, .DiscountedSalvageValue r t y)], 0⟩
      ⟨[(1 / SV2_divisor dr ymax tsmax ymin tsmin, .SalvageValue r t y)], 0⟩)

/-! ## Discount factors of `CC2_DiscountedCapitalInvestment_1_rule` and
`OC4_DiscountedOperatingCostsTotalAnnual_1_rule` (hub model)

`s` stands for the location-weighted rate
`sum(DiscountRate[r] * Geography[r,l] for r in REGION)` that both rules
compute eagerly. -/

/-- Discount divisor applied by `CC2_DiscountedCapitalInvestment_1_rule`:
`(1 + s)^(y - min(YEAR))`. -/
noncomputable def CC2_discountFactor (s y ymin : ℚ) : ℝ :=
  (1 + (s : ℝ)) ^ (((y - ymin : ℚ) : ℝ))

/-- Discount divisor applied by
`OC4_DiscountedOperatingCostsTotalAnnual_1_rule`:
`(1 + s)^(1 + y - (min(YEAR) - TimeStep[min(YEAR)]/2 + 1))`. -/
noncomputable def OC4_discountFactor (s y ymin tsmin : ℚ) : ℝ :=
  (1 + (s : ℝ)) ^ (((1 + y - (ymin - tsmin / 2 + 1) : ℚ) : ℝ))

/-- `CC2_DiscountedCapitalInvestment_1_rule` of `itom_hub.py`: on a
hub-status-matching tuple, `LocalDiscountedCapitalInvestment ==
LocalCapitalInvestment / CC2_discountFactor`; otherwise skip. -/
noncomputable def CC2_rule (hl ht : ℤ) (s : ℚ) (l t : ℕ) (y ymin : ℚ) :
    Option (PyRel ℝ) :=
  if (hl = 1 ∧ ht = 1) ∨ (hl = 0 ∧ ht = 0) then
    some (.eq ⟨[(1, .LocalDiscountedCapitalInvestment l t y)], 0⟩
      ⟨[(1 / CC2_discountFactor s y ymin, .LocalCapitalInvestment l t y)], 0⟩)
  else none

/-- `OC4_DiscountedOperatingCostsTotalAnnual_1_rule` of `itom_hub.py`: on a
hub-status-matching tuple, `LocalDiscountedOperatingCost ==
LocalOperatingCost / OC4_discountFactor`; otherwise skip. -/
noncomputable def OC4_rule (hl ht : ℤ) (s : ℚ) (l t : ℕ) (y ymin tsmin : ℚ) :
    Option (PyRel ℝ) :=
  if (hl = 1 ∧ ht = 1) ∨ (hl = 0 ∧ ht = 0) then
    some (.eq ⟨[(1, .LocalDiscountedOperatingCost l t y)], 0⟩
      ⟨[(1 / OC4_discountFactor s y ymin tsmin, .LocalOperatingCost l t y)], 0⟩)
  else none

/-- `OC4_DiscountedOperatingCostsTotalAnnual_1_rule` with its single
division guarded. -/
noncomputable def OC4_rule_checked (hl ht : ℤ) (s : ℚ) (l t : ℕ) (y ymin tsmin : ℚ) :
    Except String (Option (PyRel ℝ)) :=
  if (hl = 1 ∧ ht = 1) ∨ (hl = 0 ∧ ht = 0) then
    if OC4_discountFactor s y ymin tsmin = 0 then
      .error "OC4: zero divisor"
    else
      .ok (some (.eq ⟨[(1, .LocalDiscountedOperatingCost l t y)], 0⟩
        ⟨[(1 / OC4_discountFactor s y ymin tsmin, .LocalOperatingCost l t y)], 0⟩))
  else .ok none

/-! ## Instance-attribute model of the `__init__` chains
(`itom.py` / `itom_retrofit.py` / `itom_impurities.py` / `itom_hub.py`)

Python instance attributes are assigned by the `__init__` methods; reading an
attribute that was never assigned (and is not a class attribute — these
classes declare none) raises `AttributeError`. Only assignments to `self`
itself matter here; assignments to `self.model.<name>` populate the Pyomo
model object, not the instance. -/

/-- Reading attribute `name` on an instance whose assigned attributes are
`attrs`: `AttributeError` (the attribute's name) when absent. -/
def pyAttrLookup (attrs : List String) (name : String) : Except String Unit :=
  if name ∈ attrs then .ok () else .error name

/-- Instance attributes assigned by `abstract_itom.__init__` (`itom.py`):
`self.model`, `self.data`, `self.InputPath`. -/
def abstract_itom_attrs (_ip : Option String) : List String :=
  ["model", "data", "InputPath"]

/-- Instance attributes after `abstract_itom_retrofit.__init__`
(`itom_retrofit.py`): it calls `super().__init__` and then assigns only
`self.model.<name>` members, no new attributes on `self`. -/
def abstract_itom_retrofit_attrs (ip : Option String) : List String :=
  abstract_itom_attrs ip

/-- Instance attributes assigned by `abstract_itom_hub.__init__`
(`itom_hub.py`): `self.model`, `self.data`, `self.InputPath`, and
`self.HighMaxDefault = 1e20`. -/
def abstract_itom_hub_attrs (_ip : Option String) : List String :=
  ["model", "data", "InputPath", "HighMaxDefault"]

/-- `abstract_itom_retrofit_impurities.__init__` (`itom_impurities.py`): after
`super().__init__(InputPath=InputPath)` it declares
`MaxImpurity = Param(..., default=self.HighMaxDefault)`, whose default
argument evaluates the instance attribute `HighMaxDefault`. The result is
the attribute set on success, or the `AttributeError` name. -/
def abstract_itom_retrofit_impurities_init (ip : Option String) :
    Except String (List String) := do
  let attrs := abstract_itom_retrofit_attrs ip
  let _ ← pyAttrLookup attrs "HighMaxDefault"
  pure attrs

/-! ## Impurity limits (`IP1_ImpuritiesInProductsLimit_rule`,
`itom_impurities.py`) -/

/-- Data read by `IP1_ImpuritiesInProductsLimit_rule` (both the plain and the
hub variant define it identically). `HighMax` is `self.HighMaxDefault`. -/
structure IPEnv where
  PRODUCT : List ℕ
  ProductFromTechnology : ℕ → ℕ → ℤ
  MaxImpurity : ℕ → ℕ → ℚ
  HighMax : ℚ

/-- `RelevantProduct` in `IP1_ImpuritiesInProductsLimit_rule`: the
co-products of technology `t` other than the impurity product `i`, in
`PRODUCT` declaration order. -/
def IP1_relevantProduct (env : IPEnv) (t i : ℕ) : List ℕ :=
  env.PRODUCT.filter (fun p => !(p == i) && env.ProductFromTechnology t p == 1)

/-- `IP1_ImpuritiesInProductsLimit_rule`: when `i` is an output of `t` and
co-products exist, the source iterates `for p in RelevantProduct` but returns
in the first iteration of the loop (both the skip and the emit arm are
`return` statements), so only the head of `RelevantProduct` is consulted. -/
def IP1_ImpuritiesInProductsLimit_rule (env : IPEnv) (l t i : ℕ) (y : ℚ) :
    Option (PyRel ℚ) :=
  if env.ProductFromTechnology t i = 1 then
    match IP1_relevantProduct env t i with
    | [] => none
    | p :: _ =>
      if env.MaxImpurity p i = env.HighMax then none
      else
        some (.le ⟨[(1, .LocalProductionByTechnology l t i y)], 0⟩
          ⟨[(env.MaxImpurity p i, .LocalProductionByTechnology l t p y)], 0⟩)
  else none

/-! ## Concrete instances used by counterexamples and witnesses -/

/-- A hub environment with one regular location (`HubLocation = 0`) and one
hub technology (`HubTechnology = 1`). -/
def envC2 : HubEnv :=
  ⟨[0], [0], fun _ => 0, fun _ => 1, fun _ _ => 1, fun _ _ _ => 1, fun _ _ => 1⟩

/-- A hub environment with one regular location and one regular technology. -/
def envC2w : HubEnv :=
  ⟨[0], [0], fun _ => 0, fun _ => 0, fun _ _ => 1, fun _ _ _ => 1, fun _ _ => 1⟩

/-- SV1 inputs firing the straight-line branch: depreciation method 2,
single-year horizon (`y = max(YEAR) = 2020`), zero time steps, operational
life 2, capital cost 10, discount rate 1/20. -/
def eC1 : SVEnv :=
  ⟨0, 0, 2020, 2020, 0, 0, 2, 1 / 20, 2, 10⟩

/-- SV1 inputs with uniform ten-year time steps where the straight-line
branch fires with `OperationalLife = 15` strictly between the branch guard's
bound (11) and the elapsed-years numerator (20). -/
def eC4 : SVEnv :=
  ⟨0, 0, 2020, 2030, 10, 10, 2, 0, 15, 1⟩

/-- SV1 inputs on which the declining-balance branch fires with an
operational life (25) at least the elapsed-years numerator (20). -/
def eC4w : SVEnv :=
  ⟨0, 0, 2020, 2030, 10, 10, 1, 1 / 20, 25, 3⟩

/-- SV1 inputs with a zero operational life (and method 1, positive
discount rate, single-year horizon). -/
def eC8 : SVEnv :=
  ⟨0, 0, 2020, 2020, 0, 0, 1, 1 / 20, 0, 5⟩

/-- SV1 inputs with uniform ten-year steps, method 1, discount rate 1/20,
operational life 30. -/
def eC8w : SVEnv :=
  ⟨0, 0, 2020, 2030, 10, 10, 1, 1 / 20, 30, 2⟩

/-- Transport environment for the TF1b witness: two products, both routed
from location 0 to location 1 on mode 0, none routed back. -/
def envC6 : TFEnv :=
  { PRODUCT := [0, 1]
    LOCATION := [0, 1]
    TRANSPORTMODE := [0]
    TransportRoute := fun l _ _ _ _ => if l = 0 then 1 else 0
    TransportCapacity := fun _ _ _ _ _ => 4
    TransportCapacityToActivity := fun _ => 1
    MultiPurposeTransport := fun _ => 1
    HubLocation := fun _ => 0 }

/-- Impurity environment for the C10 witness: products `[0, 1, 2]`, all
outputs of every technology, limit 1/2 on the first co-product. -/
def envC10 : IPEnv :=
  { PRODUCT := [0, 1, 2]
    ProductFromTechnology := fun _ _ => 1
    MaxImpurity := fun p _ => if p = 2 then 9 else 1 / 2
    HighMax := HighMaxDefault }

/-- Same as `envC10` except for the limit keyed on the second co-product. -/
def envC10b : IPEnv :=
  { PRODUCT := [0, 1, 2]
    ProductFromTechnology := fun _ _ => 1
    MaxImpurity := fun p _ => if p = 2 then 7 else 1 / 2
    HighMax := HighMaxDefault }

/-! ## Theorems -/

/-- C2 counterexample: at `HubLocation[l] = 0`, `HubTechnology[t] = 1` (a
point of the claimed truth table), neither the hub branch nor the non-hub
branch of `CA5_ConstraintCapacity_rule` fires — the rule returns
`Constraint.Skip` — contradicting the claim that exactly one branch fires
at every tuple of the full truth table. -/
theorem C2_counterexample :
    CA5_branch 0 1 = none ∧
    CA5_ConstraintCapacity_rule envC2 0 0 2020 = none := by
  constructor
  · decide
  · simp [CA5_ConstraintCapacity_rule, envC2]

/-- C2 (amended): a hub-branching rule never fires both branches; rules that
branch only on the technology's hub status (`CA0_NewCapacity_rule`) fire
exactly one branch for either value in `{0, 1}` and always emit a row; rules
gated on agreement of the two statuses (`CA5_ConstraintCapacity_rule`) fire
their hub branch exactly at `(1, 1)`, their non-hub branch exactly at
`(0, 0)`, and emit no row (skip) when `HubLocation[l] ≠ HubTechnology[t]`. -/
theorem C2_hub_branching_amended (env : HubEnv) (r l t : ℕ) (y : ℚ)
    (hl : env.HubLocation l = 0 ∨ env.HubLocation l = 1)
    (ht : env.HubTechnology t = 0 ∨ env.HubTechnology t = 1) :
    ¬ (CA0_branch (env.HubTechnology t) = some .hub ∧
        CA0_branch (env.HubTechnology t) = some .nonhub) ∧
    (CA0_branch (env.HubTechnology t) = some .hub ↔ env.HubTechnology t = 1) ∧
    (CA0_branch (env.HubTechnology t) = some .nonhub ↔ env.HubTechnology t = 0) ∧
    (CA0_NewCapacity_rule env r t y).isSome ∧
    (CA5_branch (env.HubLocation l) (env.HubTechnology t) = some .hub ↔
      env.HubLocation l = 1 ∧ env.HubTechnology t = 1) ∧
    (CA5_branch (env.HubLocation l) (env.HubTechnology t) = some .nonhub ↔
      env.HubLocation l = 0 ∧ env.HubTechnology t = 0) ∧
    ((CA5_ConstraintCapacity_rule env l t y).isSome ↔
      env.HubLocation l = env.HubTechnology t) := by
  rcases hl with h1 | h1 <;> rcases ht with h2 | h2 <;>
    simp [CA0_branch, CA0_NewCapacity_rule, CA5_branch,
      CA5_ConstraintCapacity_rule, h1, h2]

/-- Witness for C2 (amended) at the concrete environment `envC2w`
(`HubLocation = 0`, `HubTechnology = 0`). -/
theorem C2_hub_branching_amended_witness :
    (envC2w.HubLocation 0 = 0 ∨ envC2w.HubLocation 0 = 1) ∧
    (envC2w.HubTechnology 0 = 0 ∨ envC2w.HubTechnology 0 = 1) ∧
    ((CA5_ConstraintCapacity_rule envC2w 0 0 2020).isSome ↔
      envC2w.HubLocation 0 = envC2w.HubTechnology 0) :=
  ⟨Or.inl rfl, Or.inl rfl,
    (C2_hub_branching_amended envC2w 0 0 0 2020 (Or.inl rfl) (Or.inl rfl)).2.2.2.2.2.2⟩

/-- C3 counterexample: with the bound at the sentinel the skip variant of
`TCC1_TotalAnnualMaxCapacityConstraint_rule` accepts the assignment that puts
`TotalCapacity = 2·10^20` (both backends emit nothing), while the shadow
model that emits the trivial row `TotalCapacity <= 1e20` rejects it — so a
skip-feasible point need not be shadow-feasible. -/
theorem C3_counterexample :
    OptSatP (fun _ => (2 * 10 ^ 20 : ℚ))
      (TCC1_TotalAnnualMaxCapacityConstraint_rule HighMaxDefault 0 0 2020) ∧
    OptSatT (fun _ => (2 * 10 ^ 20 : ℚ)) (TCC1_rule_tinyomo HighMaxDefault 0 0 2020) ∧
    ¬ OptSatT (fun _ => (2 * 10 ^ 20 : ℚ)) (TCC1_rule_shadow HighMaxDefault 0 0 2020) := by
  refine ⟨?_, ?_, ?_⟩
  · intro rel h
    simp [TCC1_TotalAnnualMaxCapacityConstraint_rule] at h
  · intro row h
    simp [TCC1_rule_tinyomo] at h
  · intro h
    have hrow := h _ rfl
    simp [TRow.sat, TTerm.eval, HighMaxDefault] at hrow

/-- C3 (amended): both backends skip the TCC1 row exactly when
`TotalAnnualMaxCapacity[r,t,y]` equals the sentinel `1e20`, and for every
assignment that keeps `TotalCapacity[r,t,y]` within the sentinel bound the
skip variant and the shadow variant (trivial row emitted) are
feasibility-equivalent. -/
theorem C3_skip_equiv_amended (maxcap : ℚ) (r t : ℕ) (y : ℚ) (v : Col → ℚ)
    (hv : v (.TotalCapacity r t y) ≤ HighMaxDefault) :
    ((TCC1_TotalAnnualMaxCapacityConstraint_rule maxcap r t y).isSome ↔
      maxcap ≠ HighMaxDefault) ∧
    ((TCC1_rule_tinyomo maxcap r t y).isSome ↔ maxcap ≠ HighMaxDefault) ∧
    (OptSatT v (TCC1_rule_tinyomo maxcap r t y) ↔
      OptSatT v (TCC1_rule_shadow maxcap r t y)) ∧
    (OptSatP v (TCC1_TotalAnnualMaxCapacityConstraint_rule maxcap r t y) ↔
      OptSatT v (TCC1_rule_shadow maxcap r t y)) := by
  have hshadow : OptSatT v (TCC1_rule_shadow maxcap r t y) ↔
      v (.TotalCapacity r t y) ≤ maxcap := by
    constructor
    · intro h
      have := h _ rfl
      simpa [TRow.sat, TTerm.eval] using this
    · intro h row hrow
      simp [TCC1_rule_shadow] at hrow
      subst hrow
      simpa [TRow.sat, TTerm.eval] using h
  by_cases hm : maxcap = HighMaxDefault
  · subst hm
    have htiny : OptSatT v (TCC1_rule_tinyomo HighMaxDefault r t y) := by
      intro row hrow
      simp [TCC1_rule_tinyomo] at hrow
    have hpy : OptSatP v (TCC1_TotalAnnualMaxCapacityConstraint_rule HighMaxDefault r t y) := by
      intro rel hrel
      simp [TCC1_TotalAnnualMaxCapacityConstraint_rule] at hrel
    refine ⟨by simp [TCC1_TotalAnnualMaxCapacityConstraint_rule],
      by simp [TCC1_rule_tinyomo], ?_, ?_⟩
    · simp [htiny, hshadow, hv]
    · simp [hpy, hshadow, hv]
  · have htiny : OptSatT v (TCC1_rule_tinyomo maxcap r t y) ↔
        v (.TotalCapacity r t y) ≤ maxcap := by
      constructor
      · intro h
        have := h ⟨[.single 1 (.TotalCapacity r t y)], maxcap, .le⟩
          (by simp [TCC1_rule_tinyomo, hm])
        simpa [TRow.sat, TTerm.eval] using this
      · intro h row hrow
        simp [TCC1_rule_tinyomo, hm] at hrow
        subst hrow
        simpa [TRow.sat, TTerm.eval] using h
    have hpy : OptSatP v (TCC1_TotalAnnualMaxCapacityConstraint_rule maxcap r t y) ↔
        v (.TotalCapacity r t y) ≤ maxcap := by
      constructor
      · intro h
        have := h (.le ⟨[(1, .TotalCapacity r t y)], 0⟩ ⟨[], maxcap⟩)
          (by simp [TCC1_TotalAnnualMaxCapacityConstraint_rule, hm])
        simpa [PyRel.sat, Aff.eval] using this
      · intro h rel hrel
        simp [TCC1_TotalAnnualMaxCapacityConstraint_rule, hm] at hrel
        subst hrel
        simpa [PyRel.sat, Aff.eval] using h
    refine ⟨by simp [TCC1_TotalAnnualMaxCapacityConstraint_rule, hm],
      by simp [TCC1_rule_tinyomo, hm], ?_, ?_⟩
    · rw [htiny, hshadow]
    · rw [hpy, hshadow]

/-- Witness for C3 (amended): bound 5, all variables at 3. -/
theorem C3_skip_equiv_amended_witness :
    ((fun _ => (3 : ℚ)) (Col.TotalCapacity 0 0 2020) ≤ HighMaxDefault) ∧
    (OptSatT (fun _ => (3 : ℚ)) (TCC1_rule_tinyomo 5 0 0 2020) ↔
      OptSatT (fun _ => (3 : ℚ)) (TCC1_rule_shadow 5 0 0 2020)) :=
  ⟨by norm_num [HighMaxDefault],
    (C3_skip_equiv_amended 5 0 0 2020 (fun _ => 3)
      (by norm_num [HighMaxDefault])).2.2.1⟩

/-- C9: constructing `abstract_itom_retrofit_impurities` fails with
`AttributeError` on `HighMaxDefault` for every input path, because the
attribute is assigned only by `abstract_itom_hub.__init__` and the class
inherits from `abstract_itom` via `abstract_itom_retrofit`, neither of which
assigns it; on the hub hierarchy the same lookup succeeds. -/
theorem C9_impurities_attribute_error (ip : Option String) :
    abstract_itom_retrofit_impurities_init ip = .error "HighMaxDefault" ∧
    pyAttrLookup (abstract_itom_hub_attrs ip) "HighMaxDefault" = .ok () := by
  constructor <;> rfl

/-- C10: `IP1_ImpuritiesInProductsLimit_rule` emits at most one row, decided
entirely by the first co-product of the technology in `PRODUCT` declaration
order: changing the `MaxImpurity` entries of every later co-product changes
neither the emit/skip decision nor the emitted row, and every emitted row
bounds the impurity against the first co-product only. -/
theorem C10_first_coproduct_only (env env2 : IPEnv) (l t i : ℕ) (y : ℚ)
    (hP : env2.PRODUCT = env.PRODUCT)
    (hF : env2.ProductFromTechnology = env.ProductFromTechnology)
    (hH : env2.HighMax = env.HighMax)
    (hM : ∀ p, (IP1_relevantProduct env t i).head? = some p →
      env2.MaxImpurity p i = env.MaxImpurity p i) :
    IP1_ImpuritiesInProductsLimit_rule env2 l t i y =
      IP1_ImpuritiesInProductsLimit_rule env l t i y ∧
    (∀ rel, IP1_ImpuritiesInProductsLimit_rule env l t i y = some rel →
      ∃ p, (IP1_relevantProduct env t i).head? = some p ∧
        env.MaxImpurity p i ≠ env.HighMax ∧
        rel = .le ⟨[(1, .LocalProductionByTechnology l t i y)], 0⟩
          ⟨[(env.MaxImpurity p i, .LocalProductionByTechnology l t p y)], 0⟩) := by
  have hrel : IP1_relevantProduct env2 t i = IP1_relevantProduct env t i := by
    unfold IP1_relevantProduct
    rw [hP, hF]
  constructor
  · unfold IP1_ImpuritiesInProductsLimit_rule
    rw [hrel, hF, hH]
    cases hcase : IP1_relevantProduct env t i with
    | nil => rfl
    | cons p rest =>
      have hp : env2.MaxImpurity p i = env.MaxImpurity p i :=
        hM p (by rw [hcase]; rfl)
      simp only [hp]
  · intro rel hemit
    unfold IP1_ImpuritiesInProductsLimit_rule at hemit
    by_cases hi : env.ProductFromTechnology t i = 1
    · rw [if_pos hi] at hemit
      cases hcase : IP1_relevantProduct env t i with
      | nil => rw [hcase] at hemit; simp at hemit
      | cons p rest =>
        rw [hcase] at hemit
        by_cases hmi : env.MaxImpurity p i = env.HighMax
        · simp [hmi] at hemit
        · simp [hmi] at hemit
          exact ⟨p, by simp [hcase], hmi, hemit.symm⟩
    · rw [if_neg hi] at hemit
      simp at hemit

/-- Witness for C10 at `envC10`/`envC10b`: products `[0,1,2]`, impurity
`i = 0`, relevant co-products `[1, 2]`; the two environments agree on the
first co-product (limit 1/2 on product 1) and differ on the second
(9 versus 7 on product 2), and the rule's outputs coincide. -/
theorem C10_first_coproduct_only_witness :
    envC10b.PRODUCT = envC10.PRODUCT ∧
    (∀ p, (IP1_relevantProduct envC10 0 0).head? = some p →
      envC10b.MaxImpurity p 0 = envC10.MaxImpurity p 0) ∧
    IP1_ImpuritiesInProductsLimit_rule envC10b 0 0 0 2020 =
      IP1_ImpuritiesInProductsLimit_rule envC10 0 0 0 2020 :=
  ⟨rfl,
    by intro p hp; simp [IP1_relevantProduct, envC10, envC10b] at hp; subst hp; rfl,
    (C10_first_coproduct_only envC10 envC10b 0 0 0 2020 rfl rfl rfl
      (by intro p hp; simp [IP1_relevantProduct, envC10, envC10b] at hp; subst hp; rfl)).1⟩

/-- Unit-coefficient Pyomo sums and tinyomo unit batches denote the same
value. -/
theorem listsum_map_one (v : Col → ℚ) (cols : List Col) :
    ((cols.map (fun c => ((1 : ℚ), c))).map (fun tc => tc.1 * v tc.2)).sum =
      (cols.map (fun col => (1 : ℚ) * v col)).sum := by
  rw [List.map_map]
  rfl

/-- C5: in `TF2_Transport_2_rule`, a regular location
(`HubLocation[l] = 0`) yields an inequality row (total outbound transport
`<=` local production) and a hub location yields an equality row, in both
the symbolic and the sparse-row backend; moreover for every assignment the
two backends' TF2 rows are satisfied together. -/
theorem C5_tf2_asymmetry (env : TFEnv) (l p : ℕ) (y : ℚ) :
    (TF2_Transport_2_rule env l p y).senseOf =
      (if env.HubLocation l = 0 then Sense.le else Sense.eq) ∧
    (TF2_rule_tinyomo env l p y).sense =
      (if env.HubLocation l = 0 then Sense.le else Sense.eq) ∧
    (∀ v : Col → ℚ, PyRel.sat v (TF2_Transport_2_rule env l p y) ↔
      TRow.sat v (TF2_rule_tinyomo env l p y)) := by
  by_cases hl : env.HubLocation l = 0
  · refine ⟨by simp [TF2_Transport_2_rule, hl, PyRel.senseOf],
      by simp [TF2_rule_tinyomo, hl], fun v => ?_⟩
    simp only [TF2_Transport_2_rule, TF2_rule_tinyomo, hl, if_pos, PyRel.sat,
      TRow.sat, Aff.eval, TTerm.eval, listsum_map_one, List.map_cons,
      List.map_nil, List.sum_cons, List.sum_nil]
    constructor <;> intro h <;> linarith
  · refine ⟨by simp [TF2_Transport_2_rule, hl, PyRel.senseOf],
      by simp [TF2_rule_tinyomo, hl], fun v => ?_⟩
    simp only [TF2_Transport_2_rule, TF2_rule_tinyomo, hl, if_neg, if_false,
      PyRel.sat, TRow.sat, Aff.eval, TTerm.eval, listsum_map_one,
      List.map_cons, List.map_nil, List.sum_cons, List.sum_nil]
    constructor <;> intro h <;> linarith

/-- The map from a product to its forward transport column is injective. -/
theorem transport_col_injective (l ll tr : ℕ) (y : ℚ) :
    Function.Injective (fun p => Col.Transport l ll p tr y) := by
  intro a b h
  simpa using h

/-- C6: for a multi-purpose mode with at least one product routed
`l`-to-`ll`, `TF1b_Transport_1b_rule` emits exactly one pooled row: sense
`<=`, right-hand side `(1/n) * sum(TransportCapacity) *
TransportCapacityToActivity`, each routed product's flow variable appearing
exactly once in the pooled sum (never one row per product), and the
symbolic backend emits a semantically identical relation. -/
theorem C6_tf1b_pooled (env : TFEnv) (l ll tr : ℕ) (y : ℚ)
    (hmp : env.MultiPurposeTransport tr = 1)
    (hnodup : env.PRODUCT.Nodup)
    (hll : l ≠ ll)
    (hne : TF1b_relevant_to env l ll tr y ≠ []) :
    ∃ row, TF1b_rule_tinyomo env l ll tr y = some row ∧
      row.sense = .le ∧
      row.rhs = TF1b_rhs env l ll tr y ∧
      (∀ p ∈ env.PRODUCT, env.TransportRoute l ll p tr y = 1 →
        row.colCount (Col.Transport l ll p tr y) = 1) ∧
      ∃ rel, TF1b_Transport_1b_rule env l ll tr y = some rel ∧
        ∀ v : Col → ℚ, PyRel.sat v rel ↔ TRow.sat v row := by
  have hto_nodup : (TF1b_relevant_to env l ll tr y).Nodup :=
    hnodup.filter _
  have hcount : ∀ p ∈ env.PRODUCT, env.TransportRoute l ll p tr y = 1 →
      ((TF1b_relevant_to env l ll tr y).map
        (fun p => Col.Transport l ll p tr y)).count (Col.Transport l ll p tr y) = 1 := by
    intro p hp hr
    rw [List.count_map_of_injective _ _ (transport_col_injective l ll tr y)]
    exact List.count_eq_one_of_mem hto_nodup
      (List.mem_filter.mpr ⟨hp, by simp [hr]⟩)
  have hrev : ∀ p, ((TF1b_relevant_from env l ll tr y).map
      (fun p => Col.Transport ll l p tr y)).count (Col.Transport l ll p tr y) = 0 := by
    intro p
    rw [List.count_eq_zero]
    intro hmem
    obtain ⟨q, _, heq⟩ := List.mem_map.mp hmem
    simp only [Col.Transport.injEq] at heq
    exact hll heq.1.symm
  by_cases hfrom : TF1b_relevant_from env l ll tr y = []
  · refine ⟨⟨[.batch 1 ((TF1b_relevant_to env l ll tr y).map
        (fun p => Col.Transport l ll p tr y))], TF1b_rhs env l ll tr y, .le⟩,
      ?_, rfl, rfl, ?_, ?_⟩
    · simp [TF1b_rule_tinyomo, hmp, hne, hfrom]
    · intro p hp hr
      simpa [TRow.colCount] using hcount p hp hr
    · refine ⟨.le ⟨(TF1b_relevant_to env l ll tr y).map
          (fun p => ((1 : ℚ), Col.Transport l ll p tr y)), 0⟩
          ⟨[], TF1b_rhs env l ll tr y⟩, ?_, fun v => ?_⟩
      · simp [TF1b_Transport_1b_rule, hmp, hne, hfrom]
      · simp only [PyRel.sat, TRow.sat, Aff.eval, TTerm.eval, List.map_map,
          Function.comp_def, List.map_cons, List.map_nil, List.sum_cons,
          List.sum_nil]
        constructor <;> intro h <;> linarith
  · refine ⟨⟨[.batch 1 ((TF1b_relevant_to env l ll tr y).map
        (fun p => Col.Transport l ll p tr y)),
        .batch 1 ((TF1b_relevant_from env l ll tr y).map
        (fun p => Col.Transport ll l p tr y))], TF1b_rhs env l ll tr y, .le⟩,
      ?_, rfl, rfl, ?_, ?_⟩
    · simp [TF1b_rule_tinyomo, hmp, hne, hfrom]
    · intro p hp hr
      simpa [TRow.colCount, hrev p] using hcount p hp hr
    · refine ⟨.le ⟨(TF1b_relevant_to env l ll tr y).map
          (fun p => ((1 : ℚ), Col.Transport l ll p tr y)) ++
          (TF1b_relevant_from env l ll tr y).map
          (fun p => ((1 : ℚ), Col.Transport ll l p tr y)), 0⟩
          ⟨[], TF1b_rhs env l ll tr y⟩, ?_, fun v => ?_⟩
      · simp [TF1b_Transport_1b_rule, hmp, hne, hfrom]
      · simp only [PyRel.sat, TRow.sat, Aff.eval, TTerm.eval, List.map_append,
          List.sum_append, List.map_map, Function.comp_def, List.map_cons,
          List.map_nil, List.sum_cons, List.sum_nil]
        constructor <;> intro h <;> linarith

/-- Witness for C6 at `envC6`: two products routed from location 0 to
location 1 on the multi-purpose mode 0, none routed back. -/
theorem C6_tf1b_pooled_witness :
    envC6.MultiPurposeTransport 0 = 1 ∧ envC6.PRODUCT.Nodup ∧ (0 : ℕ) ≠ 1 ∧
    TF1b_relevant_to envC6 0 1 0 2020 ≠ [] ∧
    ∃ row, TF1b_rule_tinyomo envC6 0 1 0 2020 = some row ∧
      row.sense = .le ∧
      row.rhs = TF1b_rhs envC6 0 1 0 2020 ∧
      (∀ p ∈ envC6.PRODUCT, envC6.TransportRoute 0 1 p 0 2020 = 1 →
        row.colCount (Col.Transport 0 1 p 0 2020) = 1) ∧
      ∃ rel, TF1b_Transport_1b_rule envC6 0 1 0 2020 = some rel ∧
        ∀ v : Col → ℚ, PyRel.sat v rel ↔ TRow.sat v row :=
  ⟨rfl, by decide, by decide, by decide,
    C6_tf1b_pooled envC6 0 1 0 2020 rfl (by decide) (by decide) (by decide)⟩

/-- C1: at the straight-line-branch input `eC1` the sparse-row backend's SV1
row and the symbolic backend's SV1 row have different solution sets: the
assignment `NewCapacity = 1`, all other columns `0` satisfies the tinyomo
row (whose second term carries the salvage coefficient on the `SalvageValue`
label) but violates the Pyomo row `SalvageValue == CapitalCost * NewCapacity
* factor`. -/
theorem C1_sv1_backend_divergence :
    TRow.sat (fun c => if c = Col.NewCapacity 0 0 2020 then (1 : ℝ) else 0)
      (SV1_rule_tinyomo eC1) ∧
    ¬ PyRel.sat (fun c => if c = Col.NewCapacity 0 0 2020 then (1 : ℝ) else 0)
      (SV1_rule_hub eC1) := by
  have h1 : ¬ SV1_cond1 eC1 := by
    norm_num [SV1_cond1, eC1]
  have h2 : SV1_cond2 eC1 := by
    norm_num [SV1_cond2, SV1_beyondHorizon, eC1]
  constructor
  · rw [SV1_rule_tinyomo, if_neg h1, if_pos h2]
    simp [TRow.sat, TTerm.eval, eC1]
  · rw [SV1_rule_hub, if_neg h1, if_pos h2]
    simp [PyRel.sat, Aff.eval, eC1, SV1_hub_coef2, SV1_hub_num]

/-- C4 counterexample: at `eC4` (uniform ten-year steps, depreciation
method 2, discount rate 0, operational life 15) the straight-line branch of
the hub SV1 rule fires although the salvage factor `1 - 20/15 = -1/3` is
negative; the emitted row is satisfied by a point with
`NewCapacity = 1` and a strictly negative `SalvageValue` — refuting the
claim that the non-zero branches produce a non-negative salvage coefficient
whenever the discount rate is non-negative. -/
theorem C4_counterexample :
    SV1_cond2 eC4 ∧ (0 : ℚ) ≤ eC4.DiscountRate ∧ SV1_hub_coef2 eC4 < 0 ∧
    PyRel.sat (fun c => if c = Col.SalvageValue 0 0 2020 then
        ((SV1_hub_coef2 eC4 : ℚ) : ℝ) else 1) (SV1_rule_hub eC4) ∧
    ((SV1_hub_coef2 eC4 : ℚ) : ℝ) < 0 := by
  have h1 : ¬ SV1_cond1 eC4 := by
    norm_num [SV1_cond1, eC4]
  have h2 : SV1_cond2 eC4 := by
    norm_num [SV1_cond2, SV1_beyondHorizon, eC4]
  have hcoef : SV1_hub_coef2 eC4 = -1 / 3 := by
    norm_num [SV1_hub_coef2, SV1_hub_num, eC4]
  refine ⟨h2, by norm_num [eC4], by rw [hcoef]; norm_num, ?_, by rw [hcoef]; norm_num⟩
  rw [SV1_rule_hub, if_neg h1, if_pos h2]
  simp [PyRel.sat, Aff.eval, eC4]

/-- C4 (amended): SV1's three cases are mutually exclusive, and whenever the
operational life ends at or before the horizon's end the rule emits
`SalvageValue == 0` — both unconditionally; the salvage factor of the two
non-zero branches is non-negative provided additionally the operational life
is positive and at least the elapsed-years numerator `max(YEAR) +
TimeStep[max]/2 - (y - TimeStep[y]/2 + 1) + 1` (without that extra bound the
factor can be negative, as the counterexample shows: the branch guard
measures the life from the investment interval's end while the factor
measures use from its start). -/
theorem C4_salvage_amended (e : SVEnv) :
    (¬ (SV1_cond1 e ∧ SV1_cond2 e)) ∧
    (¬ SV1_beyondHorizon e →
      SV1_rule_hub e = .eq ⟨[(1, .SalvageValue e.r e.t e.y)], 0⟩ ⟨[], 0⟩) ∧
    (SV1_hub_num e ≤ e.OperationalLife → 0 < e.OperationalLife →
      (SV1_cond1 e → 0 ≤ SV1_hub_coef1 e) ∧
      (SV1_cond2 e → 0 ≤ SV1_hub_coef2 e)) := by
  refine ⟨?_, ?_, fun hOL hOLpos => ⟨?_, ?_⟩⟩
  · rintro ⟨⟨hdm1, _, hdr⟩, hc2⟩
    rcases hc2 with ⟨_, _, hdr0⟩ | ⟨hdm2, _⟩
    · rw [hdr0] at hdr
      exact lt_irrefl 0 hdr
    · rw [hdm1] at hdm2
      norm_num at hdm2
  · intro hb
    have h1 : ¬ SV1_cond1 e := fun h => hb h.2.1
    have h2 : ¬ SV1_cond2 e := by
      rintro (⟨_, hbb, _⟩ | ⟨_, hbb⟩) <;> exact hb hbb
    rw [SV1_rule_hub, if_neg h1, if_neg h2]
  · rintro ⟨_, _, hdrpos⟩
    have hb : 1 < 1 + (e.DiscountRate : ℝ) := by
      have h0 : (0 : ℝ) < (e.DiscountRate : ℝ) := by exact_mod_cast hdrpos
      linarith
    have hOLR : (0 : ℝ) < ((e.OperationalLife : ℚ) : ℝ) := by exact_mod_cast hOLpos
    have hden : 1 < (1 + (e.DiscountRate : ℝ)) ^ ((e.OperationalLife : ℚ) : ℝ) := by
      rw [Real.one_lt_rpow_iff_of_pos (by linarith)]
      exact Or.inl ⟨hb, hOLR⟩
    have hnum : (1 + (e.DiscountRate : ℝ)) ^ ((SV1_hub_num e : ℚ) : ℝ) ≤
        (1 + (e.DiscountRate : ℝ)) ^ ((e.OperationalLife : ℚ) : ℝ) := by
      rw [Real.rpow_le_rpow_left_iff hb]
      exact_mod_cast hOL
    have hratio : ((1 + (e.DiscountRate : ℝ)) ^ ((SV1_hub_num e : ℚ) : ℝ) - 1) /
        ((1 + (e.DiscountRate : ℝ)) ^ ((e.OperationalLife : ℚ) : ℝ) - 1) ≤ 1 :=
      (div_le_one (by linarith)).mpr (by linarith)
    unfold SV1_hub_coef1
    linarith
  · intro _
    have hratio : SV1_hub_num e / e.OperationalLife ≤ 1 :=
      (div_le_one hOLpos).mpr hOL
    unfold SV1_hub_coef2
    linarith

/-- Witness for C4 (amended) at `eC4w` (operational life 25, numerator 20,
declining-balance branch live): the inner non-negativity implication is
instantiated with its side conditions discharged concretely. -/
theorem C4_salvage_amended_witness :
    SV1_hub_num eC4w ≤ eC4w.OperationalLife ∧ (0 : ℚ) < eC4w.OperationalLife ∧
    (SV1_cond2 eC4w → 0 ≤ SV1_hub_coef2 eC4w) :=
  ⟨by norm_num [SV1_hub_num, eC4w], by norm_num [eC4w],
    ((C4_salvage_amended eC4w).2.2 (by norm_num [SV1_hub_num, eC4w])
      (by norm_num [eC4w])).2⟩

/-- C7 counterexample: with rate sum 1 and a first time step of 2 years, the
OC4 discount factor at the base year `y = min(YEAR) = 2020` is
`(1+1)^(2/2) = 2`, not 1: operating costs incurred in the base year are
discounted to the start of the first interval, not left unchanged. -/
theorem C7_counterexample :
    OC4_discountFactor 1 2020 2020 2 = 2 ∧ OC4_discountFactor 1 2020 2020 2 ≠ 1 := by
  have h : OC4_discountFactor 1 2020 2020 2 = 2 := by
    unfold OC4_discountFactor
    rw [show (1 + 2020 - (2020 - 2 / 2 + 1) : ℚ) = 1 by norm_num]
    rw [Rat.cast_one, Real.rpow_one]
    norm_num
  exact ⟨h, by rw [h]; norm_num⟩

/-- C7 (amended): the CC2 discount factor equals 1 at `y = min(YEAR)`;
discounting zero cost returns zero through both the CC2 and the OC4 row; but
the OC4 discount factor at the base year equals
`(1 + rate)^(TimeStep[min(YEAR)]/2)`, which is 1 exactly when the first time
step is zero (the OC4 exponent targets the middle of the interval). -/
theorem C7_discount_amended (s y ymin tsmin : ℚ) (hl ht : ℤ) (l t : ℕ)
    (v : Col → ℝ) :
    CC2_discountFactor s ymin ymin = 1 ∧
    OC4_discountFactor s ymin ymin tsmin = (1 + (s : ℝ)) ^ ((tsmin / 2 : ℚ) : ℝ) ∧
    (tsmin = 0 → OC4_discountFactor s ymin ymin tsmin = 1) ∧
    (∀ rel, CC2_rule hl ht s l t y ymin = some rel → PyRel.sat v rel →
      v (.LocalCapitalInvestment l t y) = 0 →
      v (.LocalDiscountedCapitalInvestment l t y) = 0) ∧
    (∀ rel, OC4_rule hl ht s l t y ymin tsmin = some rel → PyRel.sat v rel →
      v (.LocalOperatingCost l t y) = 0 →
      v (.LocalDiscountedOperatingCost l t y) = 0) := by
  refine ⟨?_, ?_, ?_, ?_, ?_⟩
  · unfold CC2_discountFactor
    rw [show (ymin - ymin : ℚ) = 0 by ring, Rat.cast_zero, Real.rpow_zero]
  · unfold OC4_discountFactor
    rw [show (1 + ymin - (ymin - tsmin / 2 + 1) : ℚ) = tsmin / 2 by ring]
  · intro h0
    unfold OC4_discountFactor
    rw [show (1 + ymin - (ymin - tsmin / 2 + 1) : ℚ) = tsmin / 2 by ring, h0]
    norm_num
  · intro rel hrel hsat hz
    by_cases hg : (hl = 1 ∧ ht = 1) ∨ (hl = 0 ∧ ht = 0)
    · rw [CC2_rule, if_pos hg] at hrel
      obtain rfl := Option.some_inj.mp hrel
      simp [PyRel.sat, Aff.eval, hz] at hsat
      exact hsat
    · rw [CC2_rule, if_neg hg] at hrel
      exact absurd hrel (by simp)
  · intro rel hrel hsat hz
    by_cases hg : (hl = 1 ∧ ht = 1) ∨ (hl = 0 ∧ ht = 0)
    · rw [OC4_rule, if_pos hg] at hrel
      obtain rfl := Option.some_inj.mp hrel
      simp [PyRel.sat, Aff.eval, hz] at hsat
      exact hsat
    · rw [OC4_rule, if_neg hg] at hrel
      exact absurd hrel (by simp)

/-- C8 counterexample: with `OperationalLife = 0` the SV1 rule neither
raises nor divides by anything — the life-beyond-horizon guard fails and the
rule emits the constraint `SalvageValue == 0`; no fatal model-construction
error rejects the input before constraint emission. -/
theorem C8_counterexample :
    eC8.OperationalLife = 0 ∧
    SV1_rule_hub_checked eC8 =
      .ok (.eq ⟨[(1, .SalvageValue 0 0 2020)], 0⟩ ⟨[], 0⟩) := by
  have h1 : ¬ SV1_cond1 eC8 := by
    norm_num [SV1_cond1, SV1_beyondHorizon, eC8]
  have h2 : ¬ SV1_cond2 eC8 := by
    norm_num [SV1_cond2, SV1_beyondHorizon, eC8]
  refine ⟨rfl, ?_⟩
  rw [SV1_rule_hub_checked, if_neg h1, if_neg h2]
  rfl

/-- C8 (amended): no guard rejects a zero operational life or zero time
step; instead, whenever the interval around `y` does not extend more than
one year beyond the horizon's end and the discount rates are non-negative,
every division in the SV1, SV2 and OC4 formulas has a nonzero divisor (a
zero operational life always falls through to the `SalvageValue == 0`
branch), so no emitted coefficient is infinite or undefined. -/
theorem C8_no_guard_amended (e : SVEnv) (hl ht : ℤ) (s : ℚ) (l t : ℕ)
    (yo ymin tsmin ymin2 tsmin2 : ℚ)
    (hcons : 0 ≤ e.ymax + e.tsmax / 2 - e.y - e.tsy / 2 + 1)
    (hdr : 0 ≤ e.DiscountRate) (hs : 0 ≤ s) :
    (∃ rel, SV1_rule_hub_checked e = .ok rel) ∧
    (∃ rel, SV2_rule_checked e.r e.t e.y e.DiscountRate e.ymax e.tsmax ymin tsmin
      = .ok rel) ∧
    (∃ o, OC4_rule_checked hl ht s l t yo ymin2 tsmin2 = .ok o) := by
  refine ⟨?_, ?_, ?_⟩
  · by_cases hc1 : SV1_cond1 e
    · obtain ⟨hdm, hbey, hdrpos⟩ := hc1
      have hOLpos : 0 < e.OperationalLife := by
        unfold SV1_beyondHorizon at hbey
        linarith
      have hb : 1 < 1 + (e.DiscountRate : ℝ) := by
        have h0 : (0 : ℝ) < (e.DiscountRate : ℝ) := by exact_mod_cast hdrpos
        linarith
      have hOLR : (0 : ℝ) < ((e.OperationalLife : ℚ) : ℝ) := by exact_mod_cast hOLpos
      have hden : 1 < (1 + (e.DiscountRate : ℝ)) ^ ((e.OperationalLife : ℚ) : ℝ) := by
        rw [Real.one_lt_rpow_iff_of_pos (by linarith)]
        exact Or.inl ⟨hb, hOLR⟩
      rw [SV1_rule_hub_checked, if_pos ⟨hdm, hbey, hdrpos⟩,
        if_neg (by intro h0; linarith [h0])]
      exact ⟨_, rfl⟩
    · by_cases hc2 : SV1_cond2 e
      · have hbey : SV1_beyondHorizon e := by
          rcases hc2 with ⟨_, hbb, _⟩ | ⟨_, hbb⟩ <;> exact hbb
        have hOLpos : 0 < e.OperationalLife := by
          unfold SV1_beyondHorizon at hbey
          linarith
        rw [SV1_rule_hub_checked, if_neg hc1, if_pos hc2, if_neg hOLpos.ne']
        exact ⟨_, rfl⟩
      · rw [SV1_rule_hub_checked, if_neg hc1, if_neg hc2]
        exact ⟨_, rfl⟩
  · have hbase : (0 : ℝ) < 1 + (e.DiscountRate : ℝ) := by
      have h0 : (0 : ℝ) ≤ (e.DiscountRate : ℝ) := by exact_mod_cast hdr
      linarith
    have hpos : 0 < SV2_divisor e.DiscountRate e.ymax e.tsmax ymin tsmin :=
      Real.rpow_pos_of_pos hbase _
    rw [SV2_rule_checked, if_neg hpos.ne']
    exact ⟨_, rfl⟩
  · have hbase : (0 : ℝ) < 1 + (s : ℝ) := by
      have h0 : (0 : ℝ) ≤ (s : ℝ) := by exact_mod_cast hs
      linarith
    have hpos : 0 < OC4_discountFactor s yo ymin2 tsmin2 :=
      Real.rpow_pos_of_pos hbase _
    by_cases hg : (hl = 1 ∧ ht = 1) ∨ (hl = 0 ∧ ht = 0)
    · rw [OC4_rule_checked, if_pos hg, if_neg hpos.ne']
      exact ⟨_, rfl⟩
    · rw [OC4_rule_checked, if_neg hg]
      exact ⟨_, rfl⟩

/-- Witness for C8 (amended) at `eC8w` (uniform ten-year steps, rate 1/20),
hub-matching tuple `(0, 0)`, rate sum 0. -/
theorem C8_no_guard_amended_witness :
    (0 : ℚ) ≤ eC8w.ymax + eC8w.tsmax / 2 - eC8w.y - eC8w.tsy / 2 + 1 ∧
    (0 : ℚ) ≤ eC8w.DiscountRate ∧
    (∃ rel, SV1_rule_hub_checked eC8w = .ok rel) :=
  ⟨by norm_num [eC8w], by norm_num [eC8w],
    (C8_no_guard_amended eC8w 0 0 0 0 0 2020 2020 10 2020 10
      (by norm_num [eC8w]) (by norm_num [eC8w]) le_rfl).1⟩

end Itom
